/-
Verification of the RPG bear–sheep predation model
(`rpg_bear_sheep/agents.py` and `rpg_bear_sheep/model.py`).

The agents and interaction rules are shallowly embedded: Python objects
become Lean structures, the shared mutable heap of agent objects becomes an
explicit `World` state threaded through every operation, and every random
draw (uniform rolls, exponential combat samples, rng integer draws, random
choices) becomes an explicit input parameter.  Python floats are modelled by
rationals; `np.exp` is modelled by powers of a fixed rational approximation
of Euler's number (no proved claim depends on the numeric value, only on the
loop structure of `Bear.update`).

The activation scheduler (`schedule.py`, imported by the sources but not
part of them) is modelled from the spec: an agent registry holding the live
agents, with `add` registering and `remove` deregistering one agent.
-/
import Mathlib

set_option maxHeartbeats 1000000

namespace RpgBearSheep

/-- Behavior trait of a bear: `Bear.__init__` asserts the behavior is one of
exactly `'coward'` and `'aggressive'`. -/
inductive Behavior where
  | coward
  | aggressive
deriving DecidableEq, Repr

/-- Season of the model: `model.py` sets `self.season` to `'normal'` or
`'mating'`. -/
inductive Season where
  | normal
  | mating
deriving DecidableEq, Repr

/-- Per-behavior initial values, from the hard-coded dictionary
`self.initial_values` in `BearSheepPredation.__init__` (`model.py`). -/
structure InitVals where
  lowerCubLimit : ℕ
  upperCubLimit : ℕ
  lowerParentalCareLimit : ℕ
  upperParentalCareLimit : ℕ
deriving DecidableEq, Repr

/-- `model.initial_values` from `model.py`:
coward ↦ {1, 4, 8, 16}, aggressive ↦ {1, 6, 1, 8}. -/
def initialValues : Behavior → InitVals
  | .coward => ⟨1, 4, 8, 16⟩
  | .aggressive => ⟨1, 6, 1, 8⟩

/-- State of one `Bear` object (`agents.py`).  `mother` stores the mother's
unique id (the Python object reference).  `cubs` stores cub ids; in Python
the attribute only exists after `give_birth`, here it defaults to `[]`.
Likewise `parentalCareCountdown` defaults to `0`. -/
structure Bear where
  uniqueId : ℕ
  energy : ℚ
  behavior : Behavior
  isUnderParentalCare : Bool
  doesCareAfterCubs : Bool
  mother : Option ℕ
  level : ℕ
  accumulatedXp : ℚ
  lowerCubLimit : ℕ
  upperCubLimit : ℕ
  lowerParentalCareLimit : ℕ
  upperParentalCareLimit : ℕ
  isFemale : Bool
  cubs : List ℕ
  parentalCareCountdown : ℤ
deriving DecidableEq, Repr

/-- `Bear.__init__` (`agents.py`): cub limits and parental-care limits are the
floor-averaged values of both parents when `father and mother` are given,
and otherwise come from the behavior-keyed `initial_values`, with `+ 1`
added to both upper limits.  `is_female` is a coin flip in the source and an
explicit input here. -/
def bearInit (uid : ℕ) (energy : ℚ) (behavior : Behavior)
    (parents : Option (Bear × Bear)) (isFemale : Bool) : Bear :=
  match parents with
  | some (father, mother) =>
      { uniqueId := uid
        energy := energy
        behavior := behavior
        isUnderParentalCare := false
        doesCareAfterCubs := false
        mother := some mother.uniqueId
        level := 1
        accumulatedXp := 0
        lowerCubLimit := (father.lowerCubLimit + mother.lowerCubLimit) / 2
        upperCubLimit := (father.upperCubLimit + mother.upperCubLimit) / 2
        lowerParentalCareLimit :=
          (father.lowerParentalCareLimit + mother.lowerParentalCareLimit) / 2
        upperParentalCareLimit :=
          (father.upperParentalCareLimit + mother.upperParentalCareLimit) / 2
        isFemale := isFemale
        cubs := []
        parentalCareCountdown := 0 }
  | none =>
      { uniqueId := uid
        energy := energy
        behavior := behavior
        isUnderParentalCare := false
        doesCareAfterCubs := false
        mother := none
        level := 1
        accumulatedXp := 0
        lowerCubLimit := (initialValues behavior).lowerCubLimit
        upperCubLimit := (initialValues behavior).upperCubLimit + 1
        lowerParentalCareLimit := (initialValues behavior).lowerParentalCareLimit
        upperParentalCareLimit := (initialValues behavior).upperParentalCareLimit + 1
        isFemale := isFemale
        cubs := []
        parentalCareCountdown := 0 }

/-- Rational approximation of Euler's number, modelling the base of
`np.exp`.  The proved claims depend only on `2 ≤ eApprox`, not on the exact
value. -/
def eApprox : ℚ := 2718281828459045 / 1000000000000000

/-- Model of `np.exp(n)` at the natural-number arguments `level + 1` used by
`Bear.update`. -/
def npExp (n : ℕ) : ℚ := eApprox ^ n

theorem two_le_eApprox : (2 : ℚ) ≤ eApprox := by norm_num [eApprox]

theorem add_one_le_npExp (n : ℕ) : (n : ℚ) + 1 ≤ npExp n := by
  have h2 : (1 : ℚ) + n * 1 ≤ (1 + 1) ^ n := one_add_mul_le_pow (by norm_num) n
  have h3 : ((1 : ℚ) + 1) ^ n ≤ eApprox ^ n := by
    have h4 : ((1 : ℚ) + 1) ≤ eApprox := by
      have := two_le_eApprox
      linarith
    exact pow_le_pow_left₀ (by norm_num) h4 n
  unfold npExp
  calc (n : ℚ) + 1 = 1 + n * 1 := by ring
    _ ≤ (1 + 1) ^ n := h2
    _ ≤ eApprox ^ n := h3

/-- `Bear.update` (`agents.py`): `while accumulated_xp > np.exp(level + 1):
level += 1`.  The loop terminates because `npExp` is unbounded. -/
def updateLevel (xp : ℚ) (level : ℕ) : ℕ :=
  if npExp (level + 1) < xp then updateLevel xp (level + 1) else level
termination_by Nat.ceil xp - level
decreasing_by
  rename_i h
  have hge : ((level : ℚ) + 1) + 1 ≤ npExp (level + 1) := by
    simpa [Nat.cast_add] using add_one_le_npExp (level + 1)
  have hlt : (level : ℚ) < xp := by linarith
  have : level < Nat.ceil xp := Nat.lt_ceil.mpr hlt
  omega

/-- `update` only ever increments the level. -/
theorem le_updateLevel (xp : ℚ) (level : ℕ) : level ≤ updateLevel xp level := by
  unfold updateLevel
  split
  · exact le_trans (Nat.le_succ _) (le_updateLevel xp (level + 1))
  · exact le_rfl
termination_by Nat.ceil xp - level
decreasing_by
  rename_i h
  have hge : ((level : ℚ) + 1) + 1 ≤ npExp (level + 1) := by
    simpa [Nat.cast_add] using add_one_le_npExp (level + 1)
  have hlt : (level : ℚ) < xp := by linarith
  have : level < Nat.ceil xp := Nat.lt_ceil.mpr hlt
  omega

/-- Application of `Bear.update` to the bear's state. -/
def bearUpdate (b : Bear) : Bear :=
  { b with level := updateLevel b.accumulatedXp b.level }

/-- The shared simulation state: the heap of all `Bear` objects ever created
(Python objects outlive their removal from the scheduler, and a removed bear
can still be referenced and mutated), the scheduler's live registry, the
sheep registry abstracted to its size (a `Sheep` carries no state that any
behavior reads), the global id counter, the season, and the model's
constant parameters.

The registry itself is modelled from the spec (`schedule.py` is imported by
the sources but not among them): `add(agent)` registers an agent, `remove`
deregisters it, `get_agents_by_breed` returns the live members. -/
structure World where
  heap : List Bear
  live : List ℕ
  sheepCount : ℕ
  uniqueIdCounter : ℕ
  season : Season
  xpForBear : ℚ
  xpForSheep : ℚ
  bearReproduce : ℚ
  sheepReproduce : ℚ
  sheepLimit : ℕ
  huntSuccessChance : ℚ

/-- Dereference a bear object by its unique id. -/
def bearById (w : World) (i : ℕ) : Option Bear :=
  w.heap.find? (fun b => b.uniqueId == i)

/-- Mutate the bear object with id `i` in place. -/
def modifyBear (w : World) (i : ℕ) (f : Bear → Bear) : World :=
  { w with heap := w.heap.map (fun b => if b.uniqueId == i then f b else b) }

/-- Modelled from the spec: `Scheduler.add(agent)` registers an agent under
its species group; the new object enters the heap and its id enters the
live registry. -/
def addBearW (w : World) (b : Bear) : World :=
  { w with heap := w.heap ++ [b], live := w.live ++ [b.uniqueId] }

/-- Modelled from the spec: `Scheduler.remove(agent)` deregisters an agent
from the live registry (the Python object itself persists). -/
def removeBearW (w : World) (i : ℕ) : World :=
  { w with live := w.live.erase i }

/-- Modelled from the spec: `get_agents_by_breed(Bear)` returns the live
bears, in registry order. -/
def liveBears (w : World) : List Bear :=
  w.live.filterMap (bearById w)

/-- `self.accumulated_xp` of the object with id `i` (`0` when the id is
dangling, which never happens on reachable states). -/
def xpOf (w : World) (i : ℕ) : ℚ :=
  ((bearById w i).map Bear.accumulatedXp).getD 0

/-- `assistant.level` of the object with id `i`. -/
def levelOf (w : World) (i : ℕ) : ℕ :=
  ((bearById w i).map Bear.level).getD 0

/-- `bond_with_cub(mother, cub)` (`agents.py`):
`mother.does_care_after_cubs = True; cub.is_under_parental_care = True`. -/
def bondWithCub (w : World) (motherId cubId : ℕ) : World :=
  modifyBear (modifyBear w motherId (fun m => { m with doesCareAfterCubs := true }))
    cubId (fun c => { c with isUnderParentalCare := true })

/-- `chase_cub_away(mother, cub)` (`agents.py`):
`mother.does_care_after_cubs = False; cub.is_under_parental_care = False`. -/
def chaseCubAway (w : World) (motherId cubId : ℕ) : World :=
  modifyBear (modifyBear w motherId (fun m => { m with doesCareAfterCubs := false }))
    cubId (fun c => { c with isUnderParentalCare := false })

/-- `attempt_to_mate(male, female)` (`agents.py`).  `roll` is the
`random.random()` draw; the source mutates nothing and returns a Bool. -/
def attemptToMate (bearReproduce : ℚ) (male female : Bear) (roll : ℚ) : Bool :=
  if female.doesCareAfterCubs then
    false
  else
    let chanceToReproduce := bearReproduce * male.level
    let chanceToReproduce :=
      if male.behavior ≠ female.behavior then chanceToReproduce / 2
      else chanceToReproduce
    decide (roll < chanceToReproduce)

/-- `Bear.die` (`agents.py`): a caring mother first chases every cub away,
then the bear is removed from the scheduler. -/
def dieW (w : World) (selfId : ℕ) : World :=
  match bearById w selfId with
  | none => removeBearW w selfId
  | some self =>
      let w1 :=
        if self.doesCareAfterCubs then
          self.cubs.foldl (fun w' cid => chaseCubAway w' selfId cid) w
        else w
      removeBearW w1 selfId

/-- `this_bear_attack_strength = self.level` in `Bear.attack`. -/
def thisBearAttackStrength (self other : Bear) : ℕ := self.level

/-- `other_bear_attack_strength = self.level` in `Bear.attack` — the source
assigns `self.level`, not `other.level`. -/
def otherBearAttackStrength (self other : Bear) : ℕ := self.level

/-- Scale parameter of the first exponential sample in `Bear.attack`
(`self.model.random_generator.exponential(other_bear_attack_strength)`):
the draw parameterized by the opponent-named strength, i.e. the
initiator's own sample. -/
def selfDrawScale (self other : Bear) : ℕ := otherBearAttackStrength self other

/-- Scale parameter of the second exponential sample in `Bear.attack`
(`... .exponential(this_bear_attack_strength)`): the other bear's sample. -/
def otherDrawScale (self other : Bear) : ℕ := thisBearAttackStrength self other

/-- `Bear.attack(self, other)` (`agents.py`).  `selfDraw` and `otherDraw`
are the sampled values of the two exponential draws, in source order.
When `selfDraw < otherDraw`: `other` gains `xp_for_bear + self_xp / 2`,
`self` dies, `other` updates; otherwise symmetrically. -/
def attackW (w : World) (selfId otherId : ℕ) (selfDraw otherDraw : ℚ) : World :=
  if selfDraw < otherDraw then
    let selfXp := xpOf w selfId
    let w1 := modifyBear w otherId
      (fun b => { b with accumulatedXp := b.accumulatedXp + w.xpForBear + selfXp / 2 })
    let w2 := dieW w1 selfId
    modifyBear w2 otherId bearUpdate
  else
    let otherXp := xpOf w otherId
    let w1 := modifyBear w selfId
      (fun b => { b with accumulatedXp := b.accumulatedXp + w.xpForBear + otherXp / 2 })
    let w2 := dieW w1 otherId
    modifyBear w2 selfId bearUpdate

/-- `Bear.hunt(self, sheep, assistant)` (`agents.py`): the effective level
is `self.level`, or `self.level + assistant.level // 2` when an assistant
is present; on `roll < hunt_success_chance * level` the hunter gains
`xp_for_sheep` and the sheep dies; `update` runs unconditionally. -/
def huntW (w : World) (selfId : ℕ) (assistant : Option ℕ) (roll : ℚ) : World :=
  match bearById w selfId with
  | none => w
  | some self =>
      let level : ℕ :=
        match assistant with
        | none => self.level
        | some aid => self.level + levelOf w aid / 2
      let chanceToHunt := w.huntSuccessChance * level
      let w1 :=
        if roll < chanceToHunt then
          let w' := modifyBear w selfId
            (fun b => { b with accumulatedXp := b.accumulatedXp + w.xpForSheep })
          { w' with sheepCount := w'.sheepCount - 1 }
        else w
      modifyBear w1 selfId bearUpdate

/-- Model of `np.random.default_rng().integers(lo, hi)`: a uniform draw from
`[lo, hi)`, determined here by the seed input `r`. -/
def rngIntegers (lo hi r : ℕ) : ℕ := lo + r % (hi - lo)

/-- The cub objects built by the list comprehension in `Bear.give_birth`:
cub `i` receives id `counter + 1 + i` from `generate_id`, energy
`motherHalved.energy / cubCnt`, the father's or mother's behavior according
to the `random.choice` input `behaviorPicks i`, and parent-averaged limits
(`father`, then the already-halved mother object, exactly as the source
passes `self` after `self.energy = self.energy / 2`). -/
def birthCubs (counter : ℕ) (father motherHalved : Bear) (cubCnt : ℕ)
    (behaviorPicks femalePicks : ℕ → Bool) : List Bear :=
  (List.range cubCnt).map (fun i =>
    bearInit (counter + 1 + i) (motherHalved.energy / cubCnt)
      (if behaviorPicks i then father.behavior else motherHalved.behavior)
      (some (father, motherHalved)) (femalePicks i))

/-- `Bear.give_birth(self, father)` (`agents.py`): draw the litter size from
`[lower_cub_limit, upper_cub_limit)`, halve the mother's energy, build the
cubs, draw `parental_care_countdown`, then for each cub `schedule.add(cub)`
and `bond_with_cub(self, cub)`. -/
def giveBirthW (w : World) (motherId fatherId : ℕ) (cubSeed careSeed : ℕ)
    (behaviorPicks femalePicks : ℕ → Bool) : World :=
  match bearById w motherId, bearById w fatherId with
  | some mother, some father =>
      let cubCnt := rngIntegers mother.lowerCubLimit mother.upperCubLimit cubSeed
      let motherHalved := { mother with energy := mother.energy / 2 }
      let cubs := birthCubs w.uniqueIdCounter father motherHalved cubCnt
        behaviorPicks femalePicks
      let countdown : ℤ :=
        rngIntegers mother.lowerParentalCareLimit mother.upperParentalCareLimit careSeed
      let w1 := modifyBear w motherId (fun m =>
        { m with energy := m.energy / 2
                 cubs := cubs.map Bear.uniqueId
                 parentalCareCountdown := countdown })
      let w2 := { w1 with uniqueIdCounter := w1.uniqueIdCounter + cubCnt }
      cubs.foldl (fun w' cub => bondWithCub (addBearW w' cub) motherId cub.uniqueId) w2
  | _, _ => w

/-- The per-encounter random draws of `Bear.generate_encounters`: the
`random.choice` index over the filtered partner list, the mating roll, the
`give_birth` draws, and the two exponential combat samples. -/
structure Enc where
  choiceIdx : ℕ
  mateRoll : ℚ
  cubSeed : ℕ
  careSeed : ℕ
  behaviorPicks : ℕ → Bool
  femalePicks : ℕ → Bool
  selfDraw : ℚ
  otherDraw : ℚ

/-- The partner-selection step of one encounter (`agents.py`,
`generate_encounters`): query the live bears, keep those different from
`self` and not under parental care, and pick the `random.choice` element
(modelled as index modulo length) if any remain. -/
def encounterPartner (w : World) (selfId : ℕ) (choiceIdx : ℕ) : Option Bear :=
  let bears := liveBears w
  let filteredBears := bears.filter
    (fun b => b.uniqueId ≠ selfId ∧ b.isUnderParentalCare = false)
  if h : 0 < filteredBears.length then
    some (filteredBears.get ⟨choiceIdx % filteredBears.length, Nat.mod_lt _ h⟩)
  else
    none

/-- One iteration of the `for encounter_idx in range(encounter_cnt)` loop of
`Bear.generate_encounters`.  Note the source re-reads `self`'s state from
the object each iteration, and nothing stops the loop when `self` has died
in an earlier iteration. -/
def processEncounter (selfId : ℕ) (w : World) (e : Enc) : World :=
  match bearById w selfId with
  | none => w
  | some self =>
      match encounterPartner w selfId e.choiceIdx with
      | none => w
      | some otherBear =>
          if w.season = .mating ∧ otherBear.isFemale ≠ self.isFemale then
            let didMakeCubs :=
              if self.isFemale then
                attemptToMate w.bearReproduce otherBear self e.mateRoll
              else
                attemptToMate w.bearReproduce self otherBear e.mateRoll
            if didMakeCubs then
              if self.isFemale then
                giveBirthW w selfId otherBear.uniqueId e.cubSeed e.careSeed
                  e.behaviorPicks e.femalePicks
              else
                giveBirthW w otherBear.uniqueId selfId e.cubSeed e.careSeed
                  e.behaviorPicks e.femalePicks
            else w
          else if self.behavior = .aggressive then
            attackW w selfId otherBear.uniqueId e.selfDraw e.otherDraw
          else w

/-- `Bear.generate_encounters` (`agents.py`): cowards outside the mating
season return immediately; otherwise the Poisson-drawn number of encounters
(modelled by the length of the input list) are processed in order. -/
def generateEncounters (w : World) (selfId : ℕ) (encs : List Enc) : World :=
  match bearById w selfId with
  | none => w
  | some self0 =>
      if self0.behavior = .coward ∧ w.season ≠ .mating then w
      else encs.foldl (processEncounter selfId) w

/-- The parental-care block of `Bear.step` (`agents.py`, lines 231–236):
if `does_care_after_cubs and parental_care_countdown <= 0`, chase every cub
away; elif `does_care_after_cubs`, decrement the countdown. -/
def careStep (w : World) (selfId : ℕ) : World :=
  match bearById w selfId with
  | none => w
  | some self =>
      if self.doesCareAfterCubs = true ∧ self.parentalCareCountdown ≤ 0 then
        self.cubs.foldl (fun w' cid => chaseCubAway w' selfId cid) w
      else if self.doesCareAfterCubs = true then
        modifyBear w selfId
          (fun b => { b with parentalCareCountdown := b.parentalCareCountdown - 1 })
      else w

/-- Non-deterministic inputs of one `Bear.step`: the hunting roll and the
encounter draws. -/
structure StepRand where
  huntRoll : ℚ
  encs : List Enc

/-- The hunting block of `Bear.step` (`agents.py`, lines 223–230): if any
sheep exist, pick one and hunt it, assisted by the mother while under
parental care. -/
def huntPhase (w : World) (selfId : ℕ) (roll : ℚ) : World :=
  if 0 < w.sheepCount then
    match bearById w selfId with
    | none => w
    | some self =>
        if self.isUnderParentalCare then huntW w selfId self.mother roll
        else huntW w selfId none roll
  else w

/-- The encounter block of `Bear.step` (`agents.py`, lines 238–239):
`if not self.is_under_parental_care: self.generate_encounters()`. -/
def encounterPhase (w : World) (selfId : ℕ) (encs : List Enc) : World :=
  match bearById w selfId with
  | none => w
  | some self =>
      if self.isUnderParentalCare then w else generateEncounters w selfId encs

/-- The hunger block of `Bear.step` (`agents.py`, lines 241–243):
`if self.energy < 0: self.die()`. -/
def hungerPhase (w : World) (selfId : ℕ) : World :=
  match bearById w selfId with
  | none => w
  | some self => if self.energy < 0 then dieW w selfId else w

/-- `Bear.step` (`agents.py`): decrement energy; hunt a random sheep when
any exist (with the mother as assistant while under parental care); run the
parental-care block; if not under care, generate encounters; die of hunger
when `energy < 0`.  Each phase re-reads `self`'s attributes from the live
object, as the source does. -/
def bearStep (w : World) (selfId : ℕ) (r : StepRand) : World :=
  match bearById w selfId with
  | none => w
  | some _ =>
      hungerPhase
        (encounterPhase
          (careStep
            (huntPhase
              (modifyBear w selfId (fun b => { b with energy := b.energy - 1 }))
              selfId r.huntRoll)
            selfId)
          selfId r.encs)
        selfId

/-- `Sheep.step` (`agents.py`): with probability `sheep_reproduce`, and only
when the live sheep count is below `sheep_limit`, create one lamb (drawing a
fresh id from `generate_id`) and register it; the sheep registry is
abstracted to its size. -/
def sheepStep (w : World) (roll : ℚ) : World :=
  if roll < w.sheepReproduce then
    if w.sheepCount < w.sheepLimit then
      { w with sheepCount := w.sheepCount + 1,
               uniqueIdCounter := w.uniqueIdCounter + 1 }
    else w
  else w

/-- A sequence of sheep activations within one tick, one roll per sheep. -/
def sheepActivations (w : World) (rolls : List ℚ) : World :=
  rolls.foldl sheepStep w

/-! ### Registry lemmas -/

theorem bearById_modifyBear (w : World) (i j : ℕ) (f : Bear → Bear)
    (hf : ∀ b, (f b).uniqueId = b.uniqueId) :
    bearById (modifyBear w i f) j =
      (bearById w j).map (fun b => if b.uniqueId == i then f b else b) := by
  unfold bearById modifyBear
  rw [List.find?_map]
  have hp : ((fun b : Bear => b.uniqueId == j) ∘
      (fun b => if b.uniqueId == i then f b else b)) =
      (fun b : Bear => b.uniqueId == j) := by
    funext b
    by_cases hb : (b.uniqueId == i) = true
    · simp [Function.comp, hb, hf]
    · simp [Function.comp, hb]
  rw [hp]

theorem bearById_uniqueId {w : World} {j : ℕ} {b : Bear}
    (h : bearById w j = some b) : b.uniqueId = j := by
  have := List.find?_some h
  simpa using this

theorem bearById_modifyBear_self (w : World) (i : ℕ) (f : Bear → Bear)
    (hf : ∀ b, (f b).uniqueId = b.uniqueId) :
    bearById (modifyBear w i f) i = (bearById w i).map f := by
  rw [bearById_modifyBear w i i f hf]
  cases hb : bearById w i with
  | none => rfl
  | some b =>
      have hbi : b.uniqueId = i := bearById_uniqueId hb
      simp [hbi]

theorem bearById_modifyBear_ne (w : World) (i j : ℕ) (f : Bear → Bear)
    (hf : ∀ b, (f b).uniqueId = b.uniqueId) (hij : i ≠ j) :
    bearById (modifyBear w i f) j = bearById w j := by
  rw [bearById_modifyBear w i j f hf]
  cases hb : bearById w j with
  | none => rfl
  | some b =>
      have hbj : b.uniqueId = j := bearById_uniqueId hb
      have hne : b.uniqueId ≠ i := by omega
      simp [hne]

theorem modifyBear_live (w : World) (i : ℕ) (f : Bear → Bear) :
    (modifyBear w i f).live = w.live := rfl

theorem modifyBear_sheepCount (w : World) (i : ℕ) (f : Bear → Bear) :
    (modifyBear w i f).sheepCount = w.sheepCount := rfl

theorem bearById_addBearW (w : World) (c : Bear) (j : ℕ) :
    bearById (addBearW w c) j =
      (bearById w j).or (if c.uniqueId == j then some c else none) := by
  unfold bearById addBearW
  rw [List.find?_append]
  congr 1
  by_cases h : (c.uniqueId == j) = true
  · rw [@List.find?_cons_of_pos Bear (fun b => b.uniqueId == j) c [] h]
    simp [h]
  · rw [@List.find?_cons_of_neg Bear (fun b => b.uniqueId == j) c [] h]
    simp [h, List.find?]

/-- Projections that ignore the modified field pass unchanged through
`modifyBear`. -/
theorem map_proj_modifyBear {A : Type} (proj : Bear → A) (w : World) (i j : ℕ)
    (f : Bear → Bear) (hf : ∀ b, (f b).uniqueId = b.uniqueId)
    (hproj : ∀ b, proj (f b) = proj b) :
    (bearById (modifyBear w i f) j).map proj = (bearById w j).map proj := by
  rw [bearById_modifyBear w i j f hf]
  cases bearById w j with
  | none => rfl
  | some b =>
      by_cases hb : (b.uniqueId == i) = true
      · have hbi : b.uniqueId = i := by simpa using hb
        simp [hbi, hproj]
      · have hbi : b.uniqueId ≠ i := by simpa using hb
        simp [hbi]

/-- `chase_cub_away` only writes the two care flags, so any projection that
ignores both flags is preserved, for every bear. -/
theorem map_proj_chaseCubAway {A : Type} (proj : Bear → A) (w : World)
    (motherId cubId j : ℕ)
    (h1 : ∀ b, proj { b with doesCareAfterCubs := false } = proj b)
    (h2 : ∀ b, proj { b with isUnderParentalCare := false } = proj b) :
    (bearById (chaseCubAway w motherId cubId) j).map proj =
      (bearById w j).map proj := by
  unfold chaseCubAway
  rw [map_proj_modifyBear proj
      (modifyBear w motherId (fun m => { m with doesCareAfterCubs := false }))
      cubId j (fun c => { c with isUnderParentalCare := false }) (fun b => rfl) h2,
    map_proj_modifyBear proj w motherId j
      (fun m => { m with doesCareAfterCubs := false }) (fun b => rfl) h1]

theorem map_proj_chaseFold {A : Type} (proj : Bear → A) (motherId j : ℕ)
    (h1 : ∀ b, proj { b with doesCareAfterCubs := false } = proj b)
    (h2 : ∀ b, proj { b with isUnderParentalCare := false } = proj b) :
    ∀ (cs : List ℕ) (w : World),
      (bearById (cs.foldl (fun w' cid => chaseCubAway w' motherId cid) w) j).map proj =
        (bearById w j).map proj := by
  intro cs
  induction cs with
  | nil => intro w; rfl
  | cons c cs ih =>
      intro w
      simp only [List.foldl_cons]
      rw [ih, map_proj_chaseCubAway proj w motherId c j h1 h2]

theorem chaseCubAway_live (w : World) (motherId cubId : ℕ) :
    (chaseCubAway w motherId cubId).live = w.live := rfl

theorem chaseFold_live (motherId : ℕ) :
    ∀ (cs : List ℕ) (w : World),
      (cs.foldl (fun w' cid => chaseCubAway w' motherId cid) w).live = w.live := by
  intro cs
  induction cs with
  | nil => intro w; rfl
  | cons c cs ih =>
      intro w
      simp only [List.foldl_cons]
      rw [ih, chaseCubAway_live]

theorem dieW_live (w : World) (s : ℕ) : (dieW w s).live = w.live.erase s := by
  unfold dieW
  cases hb : bearById w s with
  | none => rfl
  | some self =>
      simp only
      split
      · rw [removeBearW, chaseFold_live]
      · rfl

/-- `die` never mutates any bear field other than the two care flags (it
only chases cubs away and deregisters). -/
theorem map_proj_dieW {A : Type} (proj : Bear → A) (w : World) (s j : ℕ)
    (h1 : ∀ b, proj { b with doesCareAfterCubs := false } = proj b)
    (h2 : ∀ b, proj { b with isUnderParentalCare := false } = proj b) :
    (bearById (dieW w s) j).map proj = (bearById w j).map proj := by
  unfold dieW
  cases hb : bearById w s with
  | none => rfl
  | some self =>
      simp only
      split
      · rw [show ∀ w', bearById (removeBearW w' s) j = bearById w' j from fun _ => rfl]
        rw [map_proj_chaseFold proj s j h1 h2]
      · rfl

/-! ### Level monotonicity -/

/-- `w'` extends `w` without decreasing any bear's level: every bear object
of `w` still dereferences in `w'`, with a level at least as large. -/
def levelMono (w w' : World) : Prop :=
  ∀ i b, bearById w i = some b →
    ∃ b', bearById w' i = some b' ∧ b.level ≤ b'.level

theorem levelMono_refl (w : World) : levelMono w w :=
  fun _ b h => ⟨b, h, le_rfl⟩

theorem levelMono_trans {w1 w2 w3 : World} (h12 : levelMono w1 w2)
    (h23 : levelMono w2 w3) : levelMono w1 w3 := by
  intro i b hb
  obtain ⟨b2, hb2, hle2⟩ := h12 i b hb
  obtain ⟨b3, hb3, hle3⟩ := h23 i b2 hb2
  exact ⟨b3, hb3, le_trans hle2 hle3⟩

theorem levelMono_of_heap_eq {w w' : World} (h : w'.heap = w.heap) :
    levelMono w w' := by
  intro i b hb
  refine ⟨b, ?_, le_rfl⟩
  unfold bearById at hb ⊢
  rw [h]
  exact hb

theorem levelMono_modifyBear (w : World) (i : ℕ) (f : Bear → Bear)
    (hf : ∀ b, (f b).uniqueId = b.uniqueId)
    (hlev : ∀ b, b.level ≤ (f b).level) :
    levelMono w (modifyBear w i f) := by
  intro j b hb
  rw [bearById_modifyBear w i j f hf, hb]
  refine ⟨_, rfl, ?_⟩
  by_cases hbi : (b.uniqueId == i) = true
  · simp only [if_pos hbi]
    exact hlev b
  · simp only [if_neg hbi]
    exact le_rfl

theorem levelMono_addBearW (w : World) (c : Bear) :
    levelMono w (addBearW w c) := by
  intro j b hb
  rw [bearById_addBearW, hb]
  exact ⟨b, rfl, le_rfl⟩

theorem levelMono_bondWithCub (w : World) (motherId cubId : ℕ) :
    levelMono w (bondWithCub w motherId cubId) := by
  unfold bondWithCub
  exact levelMono_trans
    (levelMono_modifyBear w motherId
      (fun m => { m with doesCareAfterCubs := true }) (fun b => rfl) (fun b => le_rfl))
    (levelMono_modifyBear _ cubId
      (fun c => { c with isUnderParentalCare := true }) (fun b => rfl) (fun b => le_rfl))

theorem levelMono_chaseCubAway (w : World) (motherId cubId : ℕ) :
    levelMono w (chaseCubAway w motherId cubId) := by
  unfold chaseCubAway
  exact levelMono_trans
    (levelMono_modifyBear w motherId
      (fun m => { m with doesCareAfterCubs := false }) (fun b => rfl) (fun b => le_rfl))
    (levelMono_modifyBear _ cubId
      (fun c => { c with isUnderParentalCare := false }) (fun b => rfl) (fun b => le_rfl))

theorem levelMono_foldl {σ : Type} (step : World → σ → World)
    (h : ∀ w x, levelMono w (step w x)) :
    ∀ (xs : List σ) (w : World), levelMono w (xs.foldl step w) := by
  intro xs
  induction xs with
  | nil => intro w; exact levelMono_refl w
  | cons x xs ih =>
      intro w
      simp only [List.foldl_cons]
      exact levelMono_trans (h w x) (ih (step w x))

theorem levelMono_removeBearW (w : World) (s : ℕ) :
    levelMono w (removeBearW w s) :=
  levelMono_of_heap_eq rfl

theorem levelMono_dieW (w : World) (s : ℕ) : levelMono w (dieW w s) := by
  unfold dieW
  cases hb : bearById w s with
  | none => exact levelMono_removeBearW w s
  | some self =>
      simp only
      refine levelMono_trans ?_ (levelMono_removeBearW _ s)
      split
      · exact levelMono_foldl _ (fun w' cid => levelMono_chaseCubAway w' s cid) _ w
      · exact levelMono_refl w

theorem levelMono_bearUpdate_modify (w : World) (i : ℕ) :
    levelMono w (modifyBear w i bearUpdate) :=
  levelMono_modifyBear w i bearUpdate (fun b => rfl)
    (fun b => le_updateLevel b.accumulatedXp b.level)

theorem levelMono_setSheepCount (w : World) (n : ℕ) :
    levelMono w { w with sheepCount := n } :=
  levelMono_of_heap_eq rfl

theorem levelMono_setCounter (w : World) (n : ℕ) :
    levelMono w { w with uniqueIdCounter := n } :=
  levelMono_of_heap_eq rfl

theorem levelMono_attackW (w : World) (selfId otherId : ℕ) (d1 d2 : ℚ) :
    levelMono w (attackW w selfId otherId d1 d2) := by
  unfold attackW
  split
  · exact levelMono_trans
      (levelMono_modifyBear w otherId
        (fun b => { b with accumulatedXp := b.accumulatedXp + w.xpForBear + xpOf w selfId / 2 })
        (fun b => rfl) (fun b => le_rfl))
      (levelMono_trans (levelMono_dieW _ selfId) (levelMono_bearUpdate_modify _ otherId))
  · exact levelMono_trans
      (levelMono_modifyBear w selfId
        (fun b => { b with accumulatedXp := b.accumulatedXp + w.xpForBear + xpOf w otherId / 2 })
        (fun b => rfl) (fun b => le_rfl))
      (levelMono_trans (levelMono_dieW _ otherId) (levelMono_bearUpdate_modify _ selfId))

theorem levelMono_huntW (w : World) (selfId : ℕ) (assistant : Option ℕ)
    (roll : ℚ) : levelMono w (huntW w selfId assistant roll) := by
  unfold huntW
  cases hb : bearById w selfId with
  | none => exact levelMono_refl w
  | some self =>
      simp only
      refine levelMono_trans ?_ (levelMono_bearUpdate_modify _ selfId)
      split
      · exact levelMono_trans
          (levelMono_modifyBear w selfId
            (fun b => { b with accumulatedXp := b.accumulatedXp + w.xpForSheep })
            (fun b => rfl) (fun b => le_rfl))
          (levelMono_setSheepCount _ _)
      · exact levelMono_refl w

theorem levelMono_giveBirthW (w : World) (motherId fatherId : ℕ)
    (cubSeed careSeed : ℕ) (behaviorPicks femalePicks : ℕ → Bool) :
    levelMono w (giveBirthW w motherId fatherId cubSeed careSeed
      behaviorPicks femalePicks) := by
  unfold giveBirthW
  cases hm : bearById w motherId with
  | none => exact levelMono_refl w
  | some mother =>
      cases hf : bearById w fatherId with
      | none => exact levelMono_refl w
      | some father =>
          simp only
          have hstep : ∀ (w' : World) (cub : Bear),
              levelMono w' (bondWithCub (addBearW w' cub) motherId cub.uniqueId) :=
            fun w' cub => levelMono_trans (levelMono_addBearW w' cub)
              (levelMono_bondWithCub _ motherId cub.uniqueId)
          refine levelMono_trans ?_ (levelMono_foldl _ hstep _ _)
          refine levelMono_trans ?_ (levelMono_setCounter _ _)
          exact levelMono_modifyBear w motherId _ (fun b => rfl) (fun b => le_rfl)

theorem levelMono_processEncounter (selfId : ℕ) (w : World) (e : Enc) :
    levelMono w (processEncounter selfId w e) := by
  unfold processEncounter
  cases hb : bearById w selfId with
  | none => exact levelMono_refl w
  | some self =>
      simp only
      cases hp : encounterPartner w selfId e.choiceIdx with
      | none => exact levelMono_refl w
      | some otherBear =>
          simp only
          split
          · repeat' split
            all_goals
              first
                | exact levelMono_giveBirthW _ _ _ _ _ _ _
                | exact levelMono_refl w
          · split
            · exact levelMono_attackW _ _ _ _ _
            · exact levelMono_refl w

theorem levelMono_generateEncounters (w : World) (selfId : ℕ)
    (encs : List Enc) : levelMono w (generateEncounters w selfId encs) := by
  unfold generateEncounters
  cases hb : bearById w selfId with
  | none => exact levelMono_refl w
  | some self0 =>
      simp only
      split
      · exact levelMono_refl w
      · exact levelMono_foldl _ (levelMono_processEncounter selfId) encs w

theorem levelMono_careStep (w : World) (selfId : ℕ) :
    levelMono w (careStep w selfId) := by
  unfold careStep
  cases hb : bearById w selfId with
  | none => exact levelMono_refl w
  | some self =>
      simp only
      split
      · exact levelMono_foldl _ (fun w' cid => levelMono_chaseCubAway w' selfId cid) _ w
      · split
        · exact levelMono_modifyBear w selfId _ (fun b => rfl) (fun b => le_rfl)
        · exact levelMono_refl w

theorem levelMono_huntPhase (w : World) (selfId : ℕ) (roll : ℚ) :
    levelMono w (huntPhase w selfId roll) := by
  unfold huntPhase
  split
  · cases hb : bearById w selfId with
    | none => exact levelMono_refl w
    | some self =>
        simp only
        split
        · exact levelMono_huntW _ _ _ _
        · exact levelMono_huntW _ _ _ _
  · exact levelMono_refl w

theorem levelMono_encounterPhase (w : World) (selfId : ℕ) (encs : List Enc) :
    levelMono w (encounterPhase w selfId encs) := by
  unfold encounterPhase
  cases hb : bearById w selfId with
  | none => exact levelMono_refl w
  | some self =>
      simp only
      split
      · exact levelMono_refl w
      · exact levelMono_generateEncounters _ _ _

theorem levelMono_hungerPhase (w : World) (selfId : ℕ) :
    levelMono w (hungerPhase w selfId) := by
  unfold hungerPhase
  cases hb : bearById w selfId with
  | none => exact levelMono_refl w
  | some self =>
      simp only
      split
      · exact levelMono_dieW _ _
      · exact levelMono_refl w

theorem levelMono_bearStep (w : World) (selfId : ℕ) (r : StepRand) :
    levelMono w (bearStep w selfId r) := by
  unfold bearStep
  cases hb : bearById w selfId with
  | none => exact levelMono_refl w
  | some self0 =>
      simp only
      refine levelMono_trans ?_ (levelMono_hungerPhase _ selfId)
      refine levelMono_trans ?_ (levelMono_encounterPhase _ selfId r.encs)
      refine levelMono_trans ?_ (levelMono_careStep _ selfId)
      refine levelMono_trans ?_ (levelMono_huntPhase _ selfId r.huntRoll)
      exact levelMono_modifyBear w selfId _ (fun b => rfl) (fun b => le_rfl)

/-! ### Concrete states for the example theorems -/

/-- A concrete bear state (a founder bear as initialized, with explicitly
chosen level, xp and energy) used by the closed example theorems. -/
def mkTestBear (uid : ℕ) (beh : Behavior) (fem : Bool) (lvl : ℕ)
    (xp en : ℚ) : Bear :=
  { uniqueId := uid
    energy := en
    behavior := beh
    isUnderParentalCare := false
    doesCareAfterCubs := false
    mother := none
    level := lvl
    accumulatedXp := xp
    lowerCubLimit := 1
    upperCubLimit := 5
    lowerParentalCareLimit := 8
    upperParentalCareLimit := 17
    isFemale := fem
    cubs := []
    parentalCareCountdown := 0 }

/-- A world with the default constructor parameters of
`BearSheepPredation.__init__` (`xp_for_bear = 500`, `xp_for_sheep = 100`,
`bear_reproduce = 0.05`, `sheep_reproduce = 0.08`, `sheep_limit = 2000`,
`hunt_success_chance = 0.06`). -/
def mkTestWorld (heap : List Bear) (live : List ℕ) (sheepCount counter : ℕ)
    (season : Season) : World :=
  { heap := heap
    live := live
    sheepCount := sheepCount
    uniqueIdCounter := counter
    season := season
    xpForBear := 500
    xpForSheep := 100
    bearReproduce := 5 / 100
    sheepReproduce := 8 / 100
    sheepLimit := 2000
    huntSuccessChance := 6 / 100 }

/-! ### C6: levels never decrease -/

/-- **C6.**  For every bear and every sequence of operations on it during a
tick, its level never decreases: `update` only ever increments the level
(`level ≤ updateLevel xp level`), and a complete `Bear.step` — which
performs every hunt, combat, birth and `update()` call a bear can
experience — maps every bear of the world to a bear of level at least as
large. -/
theorem bear_level_never_decreases :
    (∀ (xp : ℚ) (level : ℕ), level ≤ updateLevel xp level) ∧
    ∀ (w : World) (selfId : ℕ) (r : StepRand),
      levelMono w (bearStep w selfId r) :=
  ⟨le_updateLevel, levelMono_bearStep⟩

/-- Witness for C6: the level-monotonicity statement applied at a concrete
one-bear world with a concrete step. -/
theorem bear_level_never_decreases_witness :
    ∃ b', bearById
        (bearStep (mkTestWorld [mkTestBear 1 .aggressive false 1 0 10] [1] 0 1 .normal)
          1 ⟨0, []⟩) 1 = some b' ∧
      (mkTestBear 1 .aggressive false 1 0 10).level ≤ b'.level :=
  bear_level_never_decreases.2
    (mkTestWorld [mkTestBear 1 .aggressive false 1 0 10] [1] 0 1 .normal)
    1 ⟨0, []⟩ 1 (mkTestBear 1 .aggressive false 1 0 10) rfl

/-! ### C9: sheep reproduction is capped -/

theorem sheepStep_sheepLimit (w : World) (roll : ℚ) :
    (sheepStep w roll).sheepLimit = w.sheepLimit := by
  unfold sheepStep
  split_ifs <;> rfl

theorem sheepStep_count_le (w : World) (roll : ℚ)
    (h : w.sheepCount ≤ w.sheepLimit) :
    (sheepStep w roll).sheepCount ≤ w.sheepLimit := by
  unfold sheepStep
  split_ifs with h1 h2
  · show w.sheepCount + 1 ≤ w.sheepLimit
    omega
  · exact h
  · exact h

theorem sheepActivations_le :
    ∀ (rolls : List ℚ) (w : World), w.sheepCount ≤ w.sheepLimit →
      (sheepActivations w rolls).sheepCount ≤ w.sheepLimit := by
  intro rolls
  induction rolls with
  | nil => intro w h; exact h
  | cons r rolls ih =>
      intro w h
      have h1 := sheepStep_count_le w r h
      have h2 := ih (sheepStep w r) (by rw [sheepStep_sheepLimit]; exact h1)
      rw [sheepStep_sheepLimit] at h2
      simpa [sheepActivations] using h2

/-- **C9.**  A sheep's `step` adds exactly one sheep precisely when the
reproduction roll succeeds *and* the live sheep count at that moment is
below `sheep_limit`; consequently a whole tick of sheep activations never
pushes the population above `sheep_limit`. -/
theorem sheep_reproduction_capped (w : World) (roll : ℚ) :
    ((sheepStep w roll).sheepCount = w.sheepCount + 1 ↔
      (roll < w.sheepReproduce ∧ w.sheepCount < w.sheepLimit)) ∧
    (w.sheepCount ≤ w.sheepLimit →
      ∀ rolls : List ℚ,
        (sheepActivations w rolls).sheepCount ≤ w.sheepLimit) := by
  constructor
  · unfold sheepStep
    split_ifs with h1 h2
    · simp [h1, h2]
    · constructor
      · intro hEq; exfalso; omega
      · rintro ⟨-, hc⟩; exact absurd hc h2
    · constructor
      · intro hEq; exfalso; omega
      · rintro ⟨hr, -⟩; exact absurd hr h1
  · intro h rolls
    exact sheepActivations_le rolls w h

/-- Witness for C9: a world already at the sheep limit, stepped through two
successful reproduction rolls, stays at the limit. -/
theorem sheep_reproduction_capped_witness :
    (sheepActivations (mkTestWorld [] [] 2000 1 .normal) [0, 0]).sheepCount ≤
      (mkTestWorld [] [] 2000 1 .normal).sheepLimit :=
  (sheep_reproduction_capped (mkTestWorld [] [] 2000 1 .normal) 0).2
    (by decide) [0, 0]

/-! ### C10: cub-limit invariants of reachable bears -/

theorem rngIntegers_bounds (lo hi r : ℕ) (h : lo < hi) :
    lo ≤ rngIntegers lo hi r ∧ rngIntegers lo hi r < hi := by
  unfold rngIntegers
  have := Nat.mod_lt r (show 0 < hi - lo by omega)
  omega

/-- Every bear object the program can construct: a founder (built from the
behavior-keyed defaults by `model.py` or born with a missing parent — the
source never does the latter, so founders cover it) or a cub of two
reachable parents (`give_birth` constructs cubs with `father` and `self`). -/
inductive ReachableBear : Bear → Prop where
  | founder (uid : ℕ) (energy : ℚ) (behavior : Behavior) (isFemale : Bool) :
      ReachableBear (bearInit uid energy behavior none isFemale)
  | child (uid : ℕ) (energy : ℚ) (behavior : Behavior) (isFemale : Bool)
      (father mother : Bear) :
      ReachableBear father → ReachableBear mother →
      ReachableBear (bearInit uid energy behavior (some (father, mother)) isFemale)

/-- **C10.**  Every reachable bear has `lower_cub_limit ≥ 1` and
`upper_cub_limit > lower_cub_limit` (the bear-mutating operations never
touch the limit fields, and this invariant is preserved from founders to
cubs by the floor-averaging of `Bear.__init__`).  Hence the litter-size
draw of `give_birth` ranges over a non-empty interval and always yields at
least one cub, so the per-cub energy division never divides by zero. -/
theorem cub_limits_sound (b : Bear) (h : ReachableBear b) :
    1 ≤ b.lowerCubLimit ∧ b.lowerCubLimit < b.upperCubLimit ∧
    ∀ r : ℕ, 1 ≤ rngIntegers b.lowerCubLimit b.upperCubLimit r ∧
      rngIntegers b.lowerCubLimit b.upperCubLimit r < b.upperCubLimit := by
  induction h with
  | founder uid energy behavior isFemale =>
      have hlim : 1 ≤ (bearInit uid energy behavior none isFemale).lowerCubLimit ∧
          (bearInit uid energy behavior none isFemale).lowerCubLimit <
            (bearInit uid energy behavior none isFemale).upperCubLimit := by
        cases behavior <;>
          exact ⟨by norm_num [bearInit, initialValues],
            by norm_num [bearInit, initialValues]⟩
      refine ⟨hlim.1, hlim.2, ?_⟩
      intro r
      have hb := rngIntegers_bounds _ _ r hlim.2
      exact ⟨le_trans hlim.1 hb.1, hb.2⟩
  | child uid energy behavior isFemale father mother hf hm ihf ihm =>
      obtain ⟨hf1, hf2, -⟩ := ihf
      obtain ⟨hm1, hm2, -⟩ := ihm
      have h1 : 1 ≤ (bearInit uid energy behavior (some (father, mother)) isFemale).lowerCubLimit := by
        simp [bearInit]
        omega
      have h2 : (bearInit uid energy behavior (some (father, mother)) isFemale).lowerCubLimit <
          (bearInit uid energy behavior (some (father, mother)) isFemale).upperCubLimit := by
        simp [bearInit]
        omega
      refine ⟨h1, h2, ?_⟩
      intro r
      have hb := rngIntegers_bounds _ _ r h2
      exact ⟨le_trans h1 hb.1, hb.2⟩

/-- Witness for C10: the invariant at a concrete founder bear. -/
theorem cub_limits_sound_witness :
    1 ≤ (bearInit 1 10 .coward none true).lowerCubLimit ∧
    (bearInit 1 10 .coward none true).lowerCubLimit <
      (bearInit 1 10 .coward none true).upperCubLimit ∧
    ∀ r : ℕ, 1 ≤ rngIntegers (bearInit 1 10 .coward none true).lowerCubLimit
        (bearInit 1 10 .coward none true).upperCubLimit r ∧
      rngIntegers (bearInit 1 10 .coward none true).lowerCubLimit
        (bearInit 1 10 .coward none true).upperCubLimit r <
        (bearInit 1 10 .coward none true).upperCubLimit :=
  cub_limits_sound (bearInit 1 10 .coward none true)
    (ReachableBear.founder 1 10 .coward true)

/-! ### C2: the combat strength variables -/

/-- **C2** (evidence of the code bug): `Bear.attack` assigns
`other_bear_attack_strength = self.level`.  With an initiator of level 1
facing an opponent of level 5, the opponent-named strength variable
evaluates to 1 while the opponent's own level is 5, so the opponent's level
never reaches either exponential scale parameter; the claim that each
combatant's attack strength equals that combatant's own level fails on the
source. -/
theorem attack_strengths_use_initiator_level :
    thisBearAttackStrength (mkTestBear 1 .aggressive false 1 0 10)
        (mkTestBear 2 .aggressive false 5 0 10) = 1 ∧
    otherBearAttackStrength (mkTestBear 1 .aggressive false 1 0 10)
        (mkTestBear 2 .aggressive false 5 0 10) = 1 ∧
    (mkTestBear 2 .aggressive false 5 0 10).level = 5 ∧
    selfDrawScale (mkTestBear 1 .aggressive false 1 0 10)
        (mkTestBear 2 .aggressive false 5 0 10) = 1 ∧
    otherDrawScale (mkTestBear 1 .aggressive false 1 0 10)
        (mkTestBear 2 .aggressive false 5 0 10) = 1 :=
  ⟨rfl, rfl, rfl, rfl, rfl⟩

/-! ### C4: effective hunting level -/

/-- The effective skill level of an assisted hunt as the claim words it:
the average of the hunter's level and the assistant's level, the
assistant's level halved by integer division. -/
def specHuntLevel (hunterLevel assistantLevel : ℕ) : ℚ :=
  ((hunterLevel : ℚ) + ((assistantLevel / 2 : ℕ) : ℚ)) / 2

/-- The sheep count after an assisted hunt: decremented exactly when the
roll beats `hunt_success_chance` times the source's effective level
`self.level + assistant.level // 2`. -/
theorem huntW_sheepCount_assisted (w : World) (selfId aid : ℕ)
    (roll : ℚ) (self : Bear) (hself : bearById w selfId = some self) :
    (huntW w selfId (some aid) roll).sheepCount =
      if roll < w.huntSuccessChance * ((self.level + levelOf w aid / 2 : ℕ) : ℚ) then
        w.sheepCount - 1
      else w.sheepCount := by
  unfold huntW
  simp only [hself]
  split_ifs with hroll
  · rfl
  · rfl

/-- The sheep count after an unassisted hunt: decremented exactly when the
roll beats `hunt_success_chance * self.level`. -/
theorem huntW_sheepCount_solo (w : World) (selfId : ℕ)
    (roll : ℚ) (self : Bear) (hself : bearById w selfId = some self) :
    (huntW w selfId none roll).sheepCount =
      if roll < w.huntSuccessChance * (self.level : ℚ) then
        w.sheepCount - 1
      else w.sheepCount := by
  unfold huntW
  simp only [hself]
  split_ifs with hroll
  · rfl
  · rfl

/-- A world for the C4 counterexample: hunter (id 1) of level 3, assistant
(id 2) of level 4, one sheep, `hunt_success_chance = 1/10`. -/
def huntTestW : World :=
  { mkTestWorld [mkTestBear 1 .aggressive false 3 0 10,
      mkTestBear 2 .coward true 4 0 10] [1, 2] 1 2 .normal with
    huntSuccessChance := 1 / 10 }

/-- **C4 counterexample.**  For a hunter of level 3 assisted by a bear of
level 4 with `hunt_success_chance = 0.1` and roll `0.45`, the source hunt
succeeds (the sheep dies: effective level `3 + 4 // 2 = 5`, chance `0.5`),
but under the claim's averaged level (`(3 + 4 // 2) / 2 = 2.5`, chance
`0.25`) the roll would have to fail — so the claimed formula is not the
one the code uses. -/
theorem hunt_level_sum_counterexample :
    (huntW huntTestW 1 (some 2) (45 / 100)).sheepCount = 0 ∧
    ¬ ((45 : ℚ) / 100 < huntTestW.huntSuccessChance * specHuntLevel 3 4) := by
  have hfind : bearById huntTestW 1 = some (mkTestBear 1 .aggressive false 3 0 10) := rfl
  have hlev : levelOf huntTestW 2 = 4 := rfl
  constructor
  · rw [huntW_sheepCount_assisted huntTestW 1 2 (45 / 100) _ hfind, hlev]
    have hcond : (45 : ℚ) / 100 < huntTestW.huntSuccessChance *
        (((mkTestBear 1 .aggressive false 3 0 10).level + 4 / 2 : ℕ) : ℚ) := by
      norm_num [huntTestW, mkTestWorld, mkTestBear]
    rw [if_pos hcond]
    rfl
  · norm_num [huntTestW, mkTestWorld, specHuntLevel]

/-- **C4 (amended).**  The effective skill level of an assisted hunt is the
hunter's level *plus* the assistant's level halved by integer division (a
sum, not an average); unassisted it is the hunter's level.  The hunt
succeeds — observed by the sheep registry shrinking — exactly when the
roll is below `hunt_success_chance ×` that effective level. -/
theorem hunt_effective_level (w : World) (selfId aid : ℕ) (roll : ℚ)
    (self a : Bear) (hself : bearById w selfId = some self)
    (ha : bearById w aid = some a) (hsheep : 0 < w.sheepCount) :
    ((huntW w selfId (some aid) roll).sheepCount = w.sheepCount - 1 ↔
      roll < w.huntSuccessChance * ((self.level + a.level / 2 : ℕ) : ℚ)) ∧
    ((huntW w selfId none roll).sheepCount = w.sheepCount - 1 ↔
      roll < w.huntSuccessChance * (self.level : ℚ)) := by
  have hl : levelOf w aid = a.level := by
    unfold levelOf
    rw [ha]
    rfl
  constructor
  · rw [huntW_sheepCount_assisted w selfId aid roll self hself, hl]
    split_ifs with hroll
    · exact iff_of_true rfl hroll
    · exact iff_of_false (by omega) hroll
  · rw [huntW_sheepCount_solo w selfId roll self hself]
    split_ifs with hroll
    · exact iff_of_true rfl hroll
    · exact iff_of_false (by omega) hroll

/-- Witness for C4 (amended): the assisted-hunt success criterion applied
at the concrete counterexample world. -/
theorem hunt_effective_level_witness :
    (huntW huntTestW 1 (some 2) (45 / 100)).sheepCount =
      huntTestW.sheepCount - 1 :=
  (hunt_effective_level huntTestW 1 2 (45 / 100)
      (mkTestBear 1 .aggressive false 3 0 10) (mkTestBear 2 .coward true 4 0 10)
      rfl rfl (by decide)).1.mpr
    (by norm_num [huntTestW, mkTestWorld, mkTestBear])

/-! ### C7: mating attempts -/

/-- **C7.**  A mating attempt fails immediately whenever the female is
already caring for cubs; otherwise it succeeds exactly when the roll is
below `bear_reproduce × male.level`, halved when the behavior traits
differ.  The attempt itself mutates no agent state: an encounter whose
mating attempt fails leaves the world exactly as it was. -/
theorem mating_attempt_rules :
    (∀ (br : ℚ) (male female : Bear) (roll : ℚ),
      (female.doesCareAfterCubs = true →
        attemptToMate br male female roll = false) ∧
      (female.doesCareAfterCubs = false →
        (attemptToMate br male female roll = true ↔
          roll < (if male.behavior ≠ female.behavior
            then br * male.level / 2 else br * male.level)))) ∧
    ∀ (w : World) (selfId : ℕ) (e : Enc) (self otherBear : Bear),
      bearById w selfId = some self →
      encounterPartner w selfId e.choiceIdx = some otherBear →
      w.season = .mating → otherBear.isFemale ≠ self.isFemale →
      (if self.isFemale then
          attemptToMate w.bearReproduce otherBear self e.mateRoll
        else attemptToMate w.bearReproduce self otherBear e.mateRoll) = false →
      processEncounter selfId w e = w := by
  constructor
  · intro br male female roll
    constructor
    · intro hcare
      unfold attemptToMate
      rw [if_pos hcare]
    · intro hcare
      unfold attemptToMate
      rw [if_neg (by rw [hcare]; exact Bool.false_ne_true)]
      split_ifs with hbeh <;> simp
  · intro w selfId e self otherBear hself hpartner hseason hsex hfail
    unfold processEncounter
    simp only [hself, hpartner]
    rw [if_pos ⟨hseason, hsex⟩]
    rw [hfail]
    simp

/-- Witness for C7: a caring female rejects the attempt, and the failed
encounter leaves the concrete world unchanged. -/
theorem mating_attempt_rules_witness :
    attemptToMate ((5 : ℚ) / 100)
        (mkTestBear 2 .aggressive false 1 0 10)
        { mkTestBear 1 .coward true 1 0 10 with doesCareAfterCubs := true }
        (1 / 2) = false :=
  (mating_attempt_rules.1 ((5 : ℚ) / 100)
      (mkTestBear 2 .aggressive false 1 0 10)
      { mkTestBear 1 .coward true 1 0 10 with doesCareAfterCubs := true }
      (1 / 2)).1 rfl

/-! ### C3: combat resolution -/

/-- **C3 (amended).**  Combat removes exactly one combatant from the live
registry: the initiator when its sample (the first draw, taken with the
opponent-named strength as scale) is strictly smaller, otherwise the other
bear — i.e. the holder of the smaller draw *loses*.  The survivor's
`accumulated_xp` grows by exactly `xp_for_bear` plus half the loser's
`accumulated_xp`, and the survivor's `update()` is then applied to the new
xp. -/
theorem combat_resolution (w : World) (aId bId : ℕ) (a b : Bear)
    (d1 d2 : ℚ) (ha : bearById w aId = some a) (hb : bearById w bId = some b)
    (hab : aId ≠ bId) :
    (d1 < d2 →
      (attackW w aId bId d1 d2).live = w.live.erase aId ∧
      (bId ∈ w.live → bId ∈ (attackW w aId bId d1 d2).live) ∧
      ∃ b', bearById (attackW w aId bId d1 d2) bId = some b' ∧
        b'.accumulatedXp = b.accumulatedXp + w.xpForBear + a.accumulatedXp / 2 ∧
        b'.level = updateLevel b'.accumulatedXp b.level) ∧
    (¬ d1 < d2 →
      (attackW w aId bId d1 d2).live = w.live.erase bId ∧
      (aId ∈ w.live → aId ∈ (attackW w aId bId d1 d2).live) ∧
      ∃ a', bearById (attackW w aId bId d1 d2) aId = some a' ∧
        a'.accumulatedXp = a.accumulatedXp + w.xpForBear + b.accumulatedXp / 2 ∧
        a'.level = updateLevel a'.accumulatedXp a.level) := by
  have hxpa : xpOf w aId = a.accumulatedXp := by unfold xpOf; rw [ha]; rfl
  have hxpb : xpOf w bId = b.accumulatedXp := by unfold xpOf; rw [hb]; rfl
  constructor
  · intro hd
    unfold attackW
    rw [if_pos hd]
    refine ⟨?_, ?_, ?_⟩
    · rw [modifyBear_live, dieW_live, modifyBear_live]
    · intro hmem
      rw [modifyBear_live, dieW_live, modifyBear_live]
      exact (List.mem_erase_of_ne (Ne.symm hab)).mpr hmem
    · have h1 : bearById
          (modifyBear w bId (fun c =>
            { c with accumulatedXp := c.accumulatedXp + w.xpForBear + xpOf w aId / 2 }))
          bId = some { b with accumulatedXp := b.accumulatedXp + w.xpForBear + xpOf w aId / 2 } := by
        rw [bearById_modifyBear_self w bId
          (fun c => { c with accumulatedXp := c.accumulatedXp + w.xpForBear + xpOf w aId / 2 })
          (fun c => rfl), hb]
        rfl
      have h2 : (bearById
          (dieW (modifyBear w bId (fun c =>
            { c with accumulatedXp := c.accumulatedXp + w.xpForBear + xpOf w aId / 2 })) aId)
          bId).map (fun c => (c.accumulatedXp, c.level)) =
          some (b.accumulatedXp + w.xpForBear + xpOf w aId / 2, b.level) := by
        rw [map_proj_dieW (fun c => (c.accumulatedXp, c.level)) _ aId bId (fun c => rfl) (fun c => rfl), h1]
        rfl
      obtain ⟨b2, hb2, hproj⟩ := Option.map_eq_some'.mp h2
      refine ⟨bearUpdate b2, ?_, ?_, ?_⟩
      · rw [bearById_modifyBear_self _ bId bearUpdate (fun c => rfl), hb2]
        rfl
      · show b2.accumulatedXp = _
        have := congrArg Prod.fst hproj
        simpa [hxpa] using this
      · show updateLevel b2.accumulatedXp b2.level = updateLevel b2.accumulatedXp b.level
        have := congrArg Prod.snd hproj
        simp at this
        rw [this]
  · intro hd
    unfold attackW
    rw [if_neg hd]
    refine ⟨?_, ?_, ?_⟩
    · rw [modifyBear_live, dieW_live, modifyBear_live]
    · intro hmem
      rw [modifyBear_live, dieW_live, modifyBear_live]
      exact (List.mem_erase_of_ne hab).mpr hmem
    · have h1 : bearById
          (modifyBear w aId (fun c =>
            { c with accumulatedXp := c.accumulatedXp + w.xpForBear + xpOf w bId / 2 }))
          aId = some { a with accumulatedXp := a.accumulatedXp + w.xpForBear + xpOf w bId / 2 } := by
        rw [bearById_modifyBear_self w aId
          (fun c => { c with accumulatedXp := c.accumulatedXp + w.xpForBear + xpOf w bId / 2 })
          (fun c => rfl), ha]
        rfl
      have h2 : (bearById
          (dieW (modifyBear w aId (fun c =>
            { c with accumulatedXp := c.accumulatedXp + w.xpForBear + xpOf w bId / 2 })) bId)
          aId).map (fun c => (c.accumulatedXp, c.level)) =
          some (a.accumulatedXp + w.xpForBear + xpOf w bId / 2, a.level) := by
        rw [map_proj_dieW (fun c => (c.accumulatedXp, c.level)) _ bId aId (fun c => rfl) (fun c => rfl), h1]
        rfl
      obtain ⟨a2, ha2, hproj⟩ := Option.map_eq_some'.mp h2
      refine ⟨bearUpdate a2, ?_, ?_, ?_⟩
      · rw [bearById_modifyBear_self _ aId bearUpdate (fun c => rfl), ha2]
        rfl
      · show a2.accumulatedXp = _
        have := congrArg Prod.fst hproj
        simpa [hxpb] using this
      · show updateLevel a2.accumulatedXp a2.level = updateLevel a2.accumulatedXp a.level
        have := congrArg Prod.snd hproj
        simp at this
        rw [this]

/-- A world with two aggressive level-1 bears for the combat examples. -/
def combatTestW : World :=
  mkTestWorld [mkTestBear 1 .aggressive false 1 0 10,
    mkTestBear 2 .aggressive false 1 0 10] [1, 2] 0 2 .normal

/-- **C3 counterexample.**  With draws `0 < 1` the initiator — whose sample
is the first one, drawn with the opponent-named strength variable as its
scale — holds the strictly smaller draw, yet it is the one removed from
the live registry: the combatant with the smaller draw dies rather than
wins. -/
theorem smaller_draw_loses_counterexample :
    (0 : ℚ) < 1 ∧ 1 ∉ (attackW combatTestW 1 2 0 1).live := by
  refine ⟨by norm_num, ?_⟩
  have hlive : (attackW combatTestW 1 2 0 1).live = combatTestW.live.erase 1 := by
    unfold attackW
    rw [if_pos (by norm_num : (0 : ℚ) < 1)]
    rw [modifyBear_live, dieW_live, modifyBear_live]
  rw [hlive]
  decide

/-- Witness for C3 (amended): the combat theorem applied at the concrete
two-bear world with draws `0 < 1`. -/
theorem combat_resolution_witness :
    (attackW combatTestW 1 2 0 1).live = combatTestW.live.erase 1 ∧
    ∃ b', bearById (attackW combatTestW 1 2 0 1) 2 = some b' ∧
      b'.accumulatedXp = (mkTestBear 2 .aggressive false 1 0 10).accumulatedXp +
        combatTestW.xpForBear +
        (mkTestBear 1 .aggressive false 1 0 10).accumulatedXp / 2 ∧
      b'.level = updateLevel b'.accumulatedXp
        (mkTestBear 2 .aggressive false 1 0 10).level := by
  have h := (combat_resolution combatTestW 1 2
      (mkTestBear 1 .aggressive false 1 0 10)
      (mkTestBear 2 .aggressive false 1 0 10) 0 1 rfl rfl (by decide)).1
    (by norm_num)
  exact ⟨h.1, h.2.2⟩

/-! ### C5: releasing cubs from parental care -/

theorem chase_care_self (w : World) (mId cid : ℕ) :
    (bearById (chaseCubAway w mId cid) mId).map Bear.doesCareAfterCubs =
      (bearById w mId).map (fun _ => false) := by
  unfold chaseCubAway
  rw [map_proj_modifyBear Bear.doesCareAfterCubs _ cid mId
      (fun c => { c with isUnderParentalCare := false }) (fun c => rfl) (fun c => rfl)]
  rw [bearById_modifyBear_self w mId
      (fun m => { m with doesCareAfterCubs := false }) (fun c => rfl)]
  rw [Option.map_map]
  rfl

theorem chase_care_false_pres (w : World) (mx cx mId : ℕ)
    (h : (bearById w mId).map Bear.doesCareAfterCubs = some false) :
    (bearById (chaseCubAway w mx cx) mId).map Bear.doesCareAfterCubs =
      some false := by
  cases hj : bearById w mId with
  | none => rw [hj] at h; simp at h
  | some m0 =>
      rw [hj] at h
      have hm0 : m0.doesCareAfterCubs = false := by simpa using h
      unfold chaseCubAway
      rw [bearById_modifyBear _ cx mId
        (fun c => { c with isUnderParentalCare := false }) (fun c => rfl)]
      rw [bearById_modifyBear w mx mId
        (fun m => { m with doesCareAfterCubs := false }) (fun c => rfl)]
      rw [hj]
      simp only [Option.map_some']
      split_ifs <;> simp_all

theorem chaseFold_care_false_pres (mx mId : ℕ) :
    ∀ (cs : List ℕ) (w : World),
      (bearById w mId).map Bear.doesCareAfterCubs = some false →
      (bearById (cs.foldl (fun w' cid => chaseCubAway w' mx cid) w) mId).map
        Bear.doesCareAfterCubs = some false := by
  intro cs
  induction cs with
  | nil => intro w h; exact h
  | cons c cs ih =>
      intro w h
      simp only [List.foldl_cons]
      exact ih _ (chase_care_false_pres w mx c mId h)

theorem chase_under_self (w : World) (mId cid : ℕ) :
    (bearById (chaseCubAway w mId cid) cid).map Bear.isUnderParentalCare =
      (bearById w cid).map (fun _ => false) := by
  unfold chaseCubAway
  rw [bearById_modifyBear_self _ cid
      (fun c => { c with isUnderParentalCare := false }) (fun c => rfl)]
  rw [Option.map_map]
  exact map_proj_modifyBear (fun _ => (false : Bool)) w mId cid
    (fun m => { m with doesCareAfterCubs := false }) (fun c => rfl) (fun c => rfl)

theorem chase_under_false_pres (w : World) (mx cx j : ℕ)
    (h : (bearById w j).map Bear.isUnderParentalCare = some false) :
    (bearById (chaseCubAway w mx cx) j).map Bear.isUnderParentalCare =
      some false := by
  cases hj : bearById w j with
  | none => rw [hj] at h; simp at h
  | some b0 =>
      rw [hj] at h
      have hb0 : b0.isUnderParentalCare = false := by simpa using h
      unfold chaseCubAway
      rw [bearById_modifyBear _ cx j
        (fun c => { c with isUnderParentalCare := false }) (fun c => rfl)]
      rw [bearById_modifyBear w mx j
        (fun m => { m with doesCareAfterCubs := false }) (fun c => rfl)]
      rw [hj]
      simp only [Option.map_some']
      split_ifs <;> simp_all

theorem chaseFold_under_false_pres (mx j : ℕ) :
    ∀ (cs : List ℕ) (w : World),
      (bearById w j).map Bear.isUnderParentalCare = some false →
      (bearById (cs.foldl (fun w' cid => chaseCubAway w' mx cid) w) j).map
        Bear.isUnderParentalCare = some false := by
  intro cs
  induction cs with
  | nil => intro w h; exact h
  | cons c cs ih =>
      intro w h
      simp only [List.foldl_cons]
      exact ih _ (chase_under_false_pres w mx c j h)

theorem bearById_chase_isSome (w : World) (mx cx j : ℕ) :
    (bearById (chaseCubAway w mx cx) j).isSome = (bearById w j).isSome := by
  have h := map_proj_chaseCubAway (fun _ => (0 : ℕ)) w mx cx j
    (fun b => rfl) (fun b => rfl)
  have h2 := congrArg Option.isSome h
  simpa using h2

theorem bearById_chaseFold_isSome (mx j : ℕ) :
    ∀ (cs : List ℕ) (w : World),
      (bearById (cs.foldl (fun w' cid => chaseCubAway w' mx cid) w) j).isSome =
        (bearById w j).isSome := by
  intro cs
  induction cs with
  | nil => intro w; rfl
  | cons c cs ih =>
      intro w
      simp only [List.foldl_cons]
      rw [ih, bearById_chase_isSome]

/-- **C5 (amended).**  When a caring mother's `parental_care_countdown` is
observed `≤ 0` during her step, every cub is released from care —
`does_care_after_cubs` is cleared on the mother and
`is_under_parental_care` is cleared on every cub — but the mother's `cubs`
list is *retained*, not cleared (the source never empties `self.cubs`).
Otherwise the countdown is decremented by 1. -/
theorem parental_care_release (w : World) (mId : ℕ) (m : Bear)
    (hm : bearById w mId = some m) (hcare : m.doesCareAfterCubs = true) :
    (m.parentalCareCountdown ≤ 0 → m.cubs ≠ [] →
      ∃ m', bearById (careStep w mId) mId = some m' ∧
        m'.doesCareAfterCubs = false ∧
        m'.cubs = m.cubs ∧
        ∀ cid ∈ m.cubs, ∀ c', bearById (careStep w mId) cid = some c' →
          c'.isUnderParentalCare = false) ∧
    (0 < m.parentalCareCountdown →
      ∃ m', bearById (careStep w mId) mId = some m' ∧
        m'.parentalCareCountdown = m.parentalCareCountdown - 1 ∧
        m'.cubs = m.cubs ∧ m'.doesCareAfterCubs = true) := by
  constructor
  · intro hcd hcubs
    have hstep : careStep w mId =
        m.cubs.foldl (fun w' cid => chaseCubAway w' mId cid) w := by
      unfold careStep
      rw [hm]
      simp only
      rw [if_pos ⟨hcare, hcd⟩]
    rw [hstep]
    -- the mother's cubs list is untouched by the chases
    have hcubsEq : (bearById
        (m.cubs.foldl (fun w' cid => chaseCubAway w' mId cid) w) mId).map Bear.cubs =
        some m.cubs := by
      rw [map_proj_chaseFold Bear.cubs mId mId (fun b => rfl) (fun b => rfl) m.cubs w, hm]
      rfl
    obtain ⟨m', hm', hmcubs⟩ := Option.map_eq_some'.mp hcubsEq
    -- the mother's flag is cleared by the first chase and stays cleared
    have hcareEq : (bearById
        (m.cubs.foldl (fun w' cid => chaseCubAway w' mId cid) w) mId).map
          Bear.doesCareAfterCubs = some false := by
      obtain ⟨c0, rest, hsplit⟩ := List.exists_cons_of_ne_nil hcubs
      rw [hsplit]
      simp only [List.foldl_cons]
      refine chaseFold_care_false_pres mId mId rest _ ?_
      rw [chase_care_self w mId c0, hm]
      rfl
    rw [hm'] at hcareEq
    have hmc : m'.doesCareAfterCubs = false := by simpa using hcareEq
    refine ⟨m', hm', hmc, hmcubs, ?_⟩
    -- every cub's flag is cleared at its own chase and stays cleared
    intro cid hcid c' hc'
    obtain ⟨l1, l2, hsplit⟩ := List.append_of_mem hcid
    rw [hsplit] at hc'
    rw [List.foldl_append] at hc'
    simp only [List.foldl_cons] at hc'
    have hunder : (bearById (l2.foldl (fun w' c => chaseCubAway w' mId c)
        (chaseCubAway (l1.foldl (fun w' c => chaseCubAway w' mId c) w) mId cid)) cid).map
          Bear.isUnderParentalCare = some false := by
      refine chaseFold_under_false_pres mId cid l2 _ ?_
      rw [chase_under_self _ mId cid]
      -- the cub exists at that point because it exists at the end
      have hsome : (bearById (l1.foldl (fun w' c => chaseCubAway w' mId c) w) cid).isSome = true := by
        have h1 := bearById_chaseFold_isSome mId cid l2
          (chaseCubAway (l1.foldl (fun w' c => chaseCubAway w' mId c) w) mId cid)
        have h2 := bearById_chase_isSome
          (l1.foldl (fun w' c => chaseCubAway w' mId c) w) mId cid cid
        rw [hc'] at h1
        simp only [Option.isSome_some] at h1
        rw [h2] at h1
        exact h1.symm
      obtain ⟨y, hy⟩ := Option.isSome_iff_exists.mp hsome
      rw [hy]
      rfl
    rw [hc'] at hunder
    simpa using hunder
  · intro hcd
    have hstep : careStep w mId = modifyBear w mId
        (fun b => { b with parentalCareCountdown := b.parentalCareCountdown - 1 }) := by
      unfold careStep
      rw [hm]
      simp only
      rw [if_neg (by omega : ¬ (m.doesCareAfterCubs = true ∧ m.parentalCareCountdown ≤ 0))]
      rw [if_pos hcare]
    rw [hstep]
    rw [bearById_modifyBear_self w mId
      (fun b => { b with parentalCareCountdown := b.parentalCareCountdown - 1 })
      (fun b => rfl), hm]
    exact ⟨_, rfl, rfl, rfl, hcare⟩

/-- A caring mother (id 1, countdown 0, cub list `[2]`) and her cub (id 2)
for the C5 example theorems. -/
def careTestW : World :=
  mkTestWorld
    [ { mkTestBear 1 .coward true 1 0 10 with doesCareAfterCubs := true, cubs := [2] },
      { mkTestBear 2 .coward false 1 0 3 with isUnderParentalCare := true, mother := some 1 } ]
    [1, 2] 0 2 .normal

/-- **C5 counterexample.**  After the release block runs for the concrete
caring mother (countdown 0, one cub), her `cubs` list still holds the cub:
it is `[2]`, not the empty list the claim requires. -/
theorem cubs_list_not_cleared_counterexample :
    (bearById (careStep careTestW 1) 1).map Bear.cubs = some [2] ∧
    some [2] ≠ some ([] : List ℕ) := by
  constructor
  · decide
  · decide

/-- Witness for C5 (amended): the release conclusion at the concrete
mother/cub world. -/
theorem parental_care_release_witness :
    ∃ m', bearById (careStep careTestW 1) 1 = some m' ∧
      m'.doesCareAfterCubs = false ∧
      m'.cubs = [2] ∧
      ∀ cid ∈ ([2] : List ℕ), ∀ c', bearById (careStep careTestW 1) cid = some c' →
        c'.isUnderParentalCare = false :=
  (parental_care_release careTestW 1
      { mkTestBear 1 .coward true 1 0 10 with doesCareAfterCubs := true, cubs := [2] }
      rfl rfl).1 (by decide) (by decide)

/-! ### C1: a bear removed mid-tick keeps acting -/

/-- An encounter whose only used randomness is the pair of combat draws
(the partner choice index is 0 and the mating fields are unused). -/
def encDraw (d1 d2 : ℚ) : Enc :=
  ⟨0, 0, 0, 0, fun _ => true, fun _ => true, d1, d2⟩

/-- **C1** (evidence of the code bug).  Two aggressive bears, normal
season; the initiator (bear 1) draws two encounters and loses the combat of
the first one (draws `0 < 1`), so it dies and is removed from the live
registry.  Nothing stops the loop: in the second encounter the removed
bear still selects bear 2 as partner and attacks it (draws `1, 0`, so the
dead bear wins), killing bear 2 and gaining experience post-mortem — the
final registry is empty and the dead bear's `accumulated_xp` has grown to
750.  A removed predator therefore *does* keep acting in the same tick,
contrary to the claim (and, when its energy is negative at the end of
`step`, `die()` runs a second time). -/
theorem dead_bear_keeps_acting :
    1 ∉ (processEncounter 1 combatTestW (encDraw 0 1)).live ∧
    (generateEncounters combatTestW 1 [encDraw 0 1, encDraw 1 0]).live = [] ∧
    ∃ a', bearById (generateEncounters combatTestW 1 [encDraw 0 1, encDraw 1 0]) 1 =
        some a' ∧ a'.accumulatedXp = 750 := by
  refine ⟨by decide, by decide, ?_⟩
  have ha' : bearById (generateEncounters combatTestW 1 [encDraw 0 1, encDraw 1 0]) 1 =
      some (bearUpdate { mkTestBear 1 .aggressive false 1 0 10 with
        accumulatedXp := 0 + 500 +
          (bearUpdate { mkTestBear 2 .aggressive false 1 0 10 with
            accumulatedXp := 0 + 500 + 0 / 2 }).accumulatedXp / 2 }) := rfl
  refine ⟨_, ha', ?_⟩
  show (0 : ℚ) + 500 + (0 + 500 + 0 / 2) / 2 = 750
  norm_num

/-! ### C8: giving birth -/

attribute [ext] World

theorem bearInit_uniqueId (uid : ℕ) (e : ℚ) (beh : Behavior)
    (parents : Option (Bear × Bear)) (fem : Bool) :
    (bearInit uid e beh parents fem).uniqueId = uid := by
  cases parents with
  | none => rfl
  | some p => cases p; rfl

theorem find?_id_map (g : Bear → Bear) (hg : ∀ b, (g b).uniqueId = b.uniqueId)
    (l : List Bear) (j : ℕ) :
    (l.map g).find? (fun b => b.uniqueId == j) =
      (l.find? (fun b => b.uniqueId == j)).map g := by
  rw [List.find?_map]
  have hp : ((fun b : Bear => b.uniqueId == j) ∘ g) =
      (fun b : Bear => b.uniqueId == j) := by
    funext b
    simp [Function.comp, hg]
  rw [hp]

theorem find?_range_map (q : ℕ → Bear) (base : ℕ)
    (hq : ∀ j, (q j).uniqueId = base + j) :
    ∀ (n i : ℕ), i < n →
      ((List.range n).map q).find? (fun b => b.uniqueId == base + i) = some (q i) := by
  intro n
  induction n with
  | zero => intro i h; omega
  | succ n ih =>
      intro i hi
      rw [List.range_succ, List.map_append, List.find?_append]
      by_cases hin : i < n
      · rw [ih i hin]
        rfl
      · have hieq : i = n := by omega
        subst hieq
        have hnone : ((List.range i).map q).find? (fun b => b.uniqueId == base + i) = none := by
          rw [List.find?_eq_none]
          intro x hx
          obtain ⟨j, hj, rfl⟩ := List.mem_map.mp hx
          have hjlt : j < i := List.mem_range.mp hj
          simp only [hq]
          simp
          omega
        rw [hnone, Option.none_or]
        have hpq : ((q i).uniqueId == base + i) = true := by simp [hq]
        rw [show List.map q [i] = [q i] from rfl]
        rw [@List.find?_cons_of_pos Bear (fun b => b.uniqueId == base + i) (q i) [] hpq]

theorem birth_bond_step (motherId : ℕ) (w : World) (c : Bear)
    (hfresh : ∀ b ∈ w.heap, b.uniqueId ≠ c.uniqueId)
    (hcm : c.uniqueId ≠ motherId) :
    bondWithCub (addBearW w c) motherId c.uniqueId =
      { w with
        heap := w.heap.map (fun b => if b.uniqueId == motherId
                  then { b with doesCareAfterCubs := true } else b) ++
                [{ c with isUnderParentalCare := true }]
        live := w.live ++ [c.uniqueId] } := by
  unfold bondWithCub addBearW modifyBear
  ext : 1
  case heap =>
    show List.map _ (List.map _ (w.heap ++ [c])) = _
    rw [List.map_append, List.map_append, List.map_map]
    congr 1
    · apply List.map_congr_left
      intro b hb
      have hne : b.uniqueId ≠ c.uniqueId := hfresh b hb
      by_cases hbm : (b.uniqueId == motherId) = true
      · simp [Function.comp, hbm, hne]
      · simp [Function.comp, hbm, hne]
    · simp [Function.comp, hcm]
  all_goals rfl

theorem birth_fold (motherId : ℕ) :
    ∀ (cs : List Bear) (w : World), cs ≠ [] →
      (∀ c ∈ cs, ∀ b ∈ w.heap, b.uniqueId ≠ c.uniqueId) →
      (cs.map Bear.uniqueId).Nodup →
      (∀ c ∈ cs, c.uniqueId ≠ motherId) →
      cs.foldl (fun w' cub => bondWithCub (addBearW w' cub) motherId cub.uniqueId) w =
        { w with
          heap := w.heap.map (fun b => if b.uniqueId == motherId
                    then { b with doesCareAfterCubs := true } else b) ++
                  cs.map (fun c => { c with isUnderParentalCare := true })
          live := w.live ++ cs.map Bear.uniqueId } := by
  intro cs
  induction cs with
  | nil => intro w h; exact absurd rfl h
  | cons c cs ih =>
      intro w hne hfresh hnd hm
      simp only [List.foldl_cons]
      rw [birth_bond_step motherId w c (hfresh c (by simp)) (hm c (by simp))]
      by_cases hcs : cs = []
      · subst hcs
        simp
      · have hnd2 : c.uniqueId ∉ cs.map Bear.uniqueId ∧ (cs.map Bear.uniqueId).Nodup := by
          rw [List.map_cons] at hnd
          exact List.nodup_cons.mp hnd
        have hcid : c.uniqueId ∉ cs.map Bear.uniqueId := hnd2.1
        have hfresh' : ∀ c' ∈ cs, ∀ b ∈
            (w.heap.map (fun b => if b.uniqueId == motherId
              then { b with doesCareAfterCubs := true } else b) ++
              [{ c with isUnderParentalCare := true }]),
            b.uniqueId ≠ c'.uniqueId := by
          intro c' hc' b hb
          rcases List.mem_append.mp hb with hbl | hbr
          · obtain ⟨b0, hb0, rfl⟩ := List.mem_map.mp hbl
            have hne0 : b0.uniqueId ≠ c'.uniqueId :=
              hfresh c' (List.mem_cons_of_mem c hc') b0 hb0
            by_cases hbm : (b0.uniqueId == motherId) = true <;> simp [hbm, hne0]
          · have hbc : b = { c with isUnderParentalCare := true } := by simpa using hbr
            subst hbc
            show c.uniqueId ≠ c'.uniqueId
            intro hEq
            exact hcid (hEq ▸ List.mem_map_of_mem Bear.uniqueId hc')
        have hnd' : (cs.map Bear.uniqueId).Nodup := hnd2.2
        have hm' : ∀ c' ∈ cs, c'.uniqueId ≠ motherId :=
          fun c' hc' => hm c' (List.mem_cons_of_mem c hc')
        rw [ih _ hcs hfresh' hnd' hm']
        ext : 1
        · show (w.heap.map _ ++ [{ c with isUnderParentalCare := true }]).map _ ++ _ = _
          rw [List.map_append, List.map_map]
          have hidem : w.heap.map ((fun b => if b.uniqueId == motherId
              then { b with doesCareAfterCubs := true } else b) ∘
              (fun b => if b.uniqueId == motherId
              then { b with doesCareAfterCubs := true } else b)) =
              w.heap.map (fun b => if b.uniqueId == motherId
              then { b with doesCareAfterCubs := true } else b) := by
            apply List.map_congr_left
            intro b hb
            by_cases hbm : (b.uniqueId == motherId) = true <;> simp [Function.comp, hbm]
          rw [hidem]
          have hcmp : c.uniqueId ≠ motherId := hm c (by simp)
          simp [hcmp, Function.comp]
        all_goals simp


theorem bearInit_energy (uid : ℕ) (e : ℚ) (beh : Behavior)
    (parents : Option (Bear × Bear)) (fem : Bool) :
    (bearInit uid e beh parents fem).energy = e := by
  cases parents with
  | none => rfl
  | some p => cases p; rfl

theorem birthCubs_ids (counter : ℕ) (father motherHalved : Bear) (cubCnt : ℕ)
    (behaviorPicks femalePicks : ℕ → Bool) :
    (birthCubs counter father motherHalved cubCnt behaviorPicks femalePicks).map
      Bear.uniqueId = (List.range cubCnt).map (fun i => counter + 1 + i) := by
  unfold birthCubs
  rw [List.map_map]
  apply List.map_congr_left
  intro i hi
  exact bearInit_uniqueId _ _ _ _ _

/-- The state after `give_birth`, in closed form: the mother object carries
halved energy, the cub-id list and the drawn countdown, and has her care
flag set; the bonded cubs are appended to the heap and registered. -/
theorem giveBirthW_eq (w : World) (mId fId : ℕ) (m f : Bear)
    (cubSeed careSeed : ℕ) (behaviorPicks femalePicks : ℕ → Bool)
    (hm : bearById w mId = some m) (hf : bearById w fId = some f)
    (hfreshAll : ∀ b ∈ w.heap, b.uniqueId ≤ w.uniqueIdCounter)
    (hn1 : 1 ≤ rngIntegers m.lowerCubLimit m.upperCubLimit cubSeed) :
    giveBirthW w mId fId cubSeed careSeed behaviorPicks femalePicks =
      { w with
        heap := (w.heap.map (fun b => if b.uniqueId == mId then
                  { b with
                    energy := b.energy / 2
                    cubs := (birthCubs w.uniqueIdCounter f
                        { m with energy := m.energy / 2 }
                        (rngIntegers m.lowerCubLimit m.upperCubLimit cubSeed)
                        behaviorPicks femalePicks).map Bear.uniqueId
                    parentalCareCountdown :=
                      (rngIntegers m.lowerParentalCareLimit
                        m.upperParentalCareLimit careSeed : ℤ) }
                  else b)).map (fun b => if b.uniqueId == mId then
                    { b with doesCareAfterCubs := true } else b) ++
                (birthCubs w.uniqueIdCounter f { m with energy := m.energy / 2 }
                    (rngIntegers m.lowerCubLimit m.upperCubLimit cubSeed)
                    behaviorPicks femalePicks).map
                  (fun c => { c with isUnderParentalCare := true })
        live := w.live ++
                (birthCubs w.uniqueIdCounter f { m with energy := m.energy / 2 }
                    (rngIntegers m.lowerCubLimit m.upperCubLimit cubSeed)
                    behaviorPicks femalePicks).map Bear.uniqueId
        uniqueIdCounter := w.uniqueIdCounter +
          rngIntegers m.lowerCubLimit m.upperCubLimit cubSeed } := by
  have hcubsIds := birthCubs_ids w.uniqueIdCounter f { m with energy := m.energy / 2 }
    (rngIntegers m.lowerCubLimit m.upperCubLimit cubSeed) behaviorPicks femalePicks
  unfold giveBirthW
  simp only [hm, hf]
  have hne : birthCubs w.uniqueIdCounter f { m with energy := m.energy / 2 }
      (rngIntegers m.lowerCubLimit m.upperCubLimit cubSeed)
      behaviorPicks femalePicks ≠ [] := by
    apply List.ne_nil_of_length_pos
    unfold birthCubs
    simp
    omega
  have hfresh : ∀ c ∈ birthCubs w.uniqueIdCounter f { m with energy := m.energy / 2 }
      (rngIntegers m.lowerCubLimit m.upperCubLimit cubSeed) behaviorPicks femalePicks,
      ∀ b ∈ (modifyBear w mId (fun mm =>
        { mm with
          energy := mm.energy / 2
          cubs := (birthCubs w.uniqueIdCounter f { m with energy := m.energy / 2 }
              (rngIntegers m.lowerCubLimit m.upperCubLimit cubSeed)
              behaviorPicks femalePicks).map Bear.uniqueId
          parentalCareCountdown :=
            (rngIntegers m.lowerParentalCareLimit
              m.upperParentalCareLimit careSeed : ℤ) })).heap,
      b.uniqueId ≠ c.uniqueId := by
    intro c hc b hb
    obtain ⟨i, hi, rfl⟩ := List.mem_map.mp hc
    obtain ⟨b0, hb0, rfl⟩ := List.mem_map.mp hb
    rw [bearInit_uniqueId]
    have hle := hfreshAll b0 hb0
    by_cases hbm : (b0.uniqueId == mId) = true <;> simp [hbm] <;> omega
  have hnd : ((birthCubs w.uniqueIdCounter f { m with energy := m.energy / 2 }
      (rngIntegers m.lowerCubLimit m.upperCubLimit cubSeed)
      behaviorPicks femalePicks).map Bear.uniqueId).Nodup := by
    rw [hcubsIds]
    exact List.Nodup.map (fun a b h => by omega) (List.nodup_range _)
  have hmids : ∀ c ∈ birthCubs w.uniqueIdCounter f { m with energy := m.energy / 2 }
      (rngIntegers m.lowerCubLimit m.upperCubLimit cubSeed) behaviorPicks femalePicks,
      c.uniqueId ≠ mId := by
    have hmid : mId ≤ w.uniqueIdCounter := by
      have hmem : m ∈ w.heap := List.mem_of_find?_eq_some hm
      have h2 := hfreshAll m hmem
      rw [bearById_uniqueId hm] at h2
      exact h2
    intro c hc
    obtain ⟨i, hi, rfl⟩ := List.mem_map.mp hc
    rw [bearInit_uniqueId]
    omega
  refine Eq.trans (birth_fold mId _ _ hne hfresh hnd hmids) ?_
  rfl

end RpgBearSheep

namespace RpgBearSheep

/-- **C8.**  On a successful mating, `give_birth` draws the litter size from
the half-open interval `[lower_cub_limit, upper_cub_limit)`, halves the
mother's energy, gives each cub exactly the halved energy divided by the
litter size, and registers every cub with the scheduler bonded to the
mother: the mother's `does_care_after_cubs` becomes true (with the cub ids
recorded and the countdown drawn) and every cub is live with
`is_under_parental_care = true`. -/
theorem give_birth_spec (w : World) (mId fId : ℕ) (m f : Bear)
    (cubSeed careSeed : ℕ) (behaviorPicks femalePicks : ℕ → Bool)
    (hm : bearById w mId = some m) (hf : bearById w fId = some f)
    (hfreshAll : ∀ b ∈ w.heap, b.uniqueId ≤ w.uniqueIdCounter)
    (hlo : 1 ≤ m.lowerCubLimit) (hlohi : m.lowerCubLimit < m.upperCubLimit) :
    (m.lowerCubLimit ≤ rngIntegers m.lowerCubLimit m.upperCubLimit cubSeed ∧
      rngIntegers m.lowerCubLimit m.upperCubLimit cubSeed < m.upperCubLimit) ∧
    bearById (giveBirthW w mId fId cubSeed careSeed behaviorPicks femalePicks) mId =
      some { m with
        energy := m.energy / 2
        doesCareAfterCubs := true
        cubs := (List.range (rngIntegers m.lowerCubLimit m.upperCubLimit cubSeed)).map
          (fun i => w.uniqueIdCounter + 1 + i)
        parentalCareCountdown :=
          (rngIntegers m.lowerParentalCareLimit m.upperParentalCareLimit careSeed : ℤ) } ∧
    ∀ i, i < rngIntegers m.lowerCubLimit m.upperCubLimit cubSeed →
      (w.uniqueIdCounter + 1 + i) ∈
        (giveBirthW w mId fId cubSeed careSeed behaviorPicks femalePicks).live ∧
      ∃ c, bearById (giveBirthW w mId fId cubSeed careSeed behaviorPicks femalePicks)
          (w.uniqueIdCounter + 1 + i) = some c ∧
        c.isUnderParentalCare = true ∧
        c.energy = m.energy / 2 /
          (rngIntegers m.lowerCubLimit m.upperCubLimit cubSeed : ℚ) := by
  have hbounds := rngIntegers_bounds _ _ cubSeed hlohi
  have hn1 : 1 ≤ rngIntegers m.lowerCubLimit m.upperCubLimit cubSeed :=
    le_trans hlo hbounds.1
  have hmid' : m.uniqueId = mId := bearById_uniqueId hm
  have heq := giveBirthW_eq w mId fId m f cubSeed careSeed behaviorPicks femalePicks
    hm hf hfreshAll hn1
  have hcubsIds := birthCubs_ids w.uniqueIdCounter f { m with energy := m.energy / 2 }
    (rngIntegers m.lowerCubLimit m.upperCubLimit cubSeed) behaviorPicks femalePicks
  have hgC : ∀ b : Bear, ((fun b : Bear => if b.uniqueId == mId then
      { b with doesCareAfterCubs := true } else b) b).uniqueId = b.uniqueId := by
    intro b
    by_cases hb : (b.uniqueId == mId) = true <;> simp [hb]
  have hhM : ∀ b : Bear, ((fun b : Bear => if b.uniqueId == mId then
      { b with
        energy := b.energy / 2
        cubs := (birthCubs w.uniqueIdCounter f { m with energy := m.energy / 2 }
            (rngIntegers m.lowerCubLimit m.upperCubLimit cubSeed)
            behaviorPicks femalePicks).map Bear.uniqueId
        parentalCareCountdown := (rngIntegers m.lowerParentalCareLimit
          m.upperParentalCareLimit careSeed : ℤ) } else b) b).uniqueId = b.uniqueId := by
    intro b
    by_cases hb : (b.uniqueId == mId) = true <;> simp [hb]
  refine ⟨hbounds, ?_, ?_⟩
  · rw [heq]
    show List.find? _ (_ ++ _) = _
    rw [List.find?_append]
    rw [find?_id_map _ hgC, find?_id_map _ hhM]
    rw [show w.heap.find? (fun b => b.uniqueId == mId) = some m from hm]
    show (some _).or _ = _
    rw [show ∀ (x : Bear) (o : Option Bear), (some x).or o = some x from fun x o => rfl]
    have hcubsIds2 := hcubsIds
    rw [hmid'] at hcubsIds2
    congr 1
    simp [hmid', hcubsIds2]
  · intro i hi
    constructor
    · rw [heq]
      show _ ∈ w.live ++ _
      refine List.mem_append.mpr (Or.inr ?_)
      rw [hcubsIds]
      exact List.mem_map.mpr ⟨i, List.mem_range.mpr hi, rfl⟩
    · rw [heq]
      show ∃ c, List.find? _ (_ ++ _) = some c ∧ _
      rw [List.find?_append]
      have hlnone : (((w.heap.map (fun b => if b.uniqueId == mId then
          { b with
            energy := b.energy / 2
            cubs := (birthCubs w.uniqueIdCounter f { m with energy := m.energy / 2 }
                (rngIntegers m.lowerCubLimit m.upperCubLimit cubSeed)
                behaviorPicks femalePicks).map Bear.uniqueId
            parentalCareCountdown := (rngIntegers m.lowerParentalCareLimit
              m.upperParentalCareLimit careSeed : ℤ) } else b)).map
          (fun b => if b.uniqueId == mId then
            { b with doesCareAfterCubs := true } else b)).find?
          (fun b => b.uniqueId == w.uniqueIdCounter + 1 + i)) = none := by
        rw [List.find?_eq_none]
        intro x hx
        obtain ⟨b1, hb1, rfl⟩ := List.mem_map.mp hx
        obtain ⟨b0, hb0, rfl⟩ := List.mem_map.mp hb1
        have hle := hfreshAll b0 hb0
        rw [hgC, hhM]
        simp
        omega
      rw [hlnone, Option.none_or]
      have hq : ∀ j, (((fun c : Bear => { c with isUnderParentalCare := true }) ∘
          (fun i => bearInit (w.uniqueIdCounter + 1 + i)
            (({ m with energy := m.energy / 2 } : Bear).energy /
              (rngIntegers m.lowerCubLimit m.upperCubLimit cubSeed : ℚ))
            (if behaviorPicks i then f.behavior
              else ({ m with energy := m.energy / 2 } : Bear).behavior)
            (some (f, { m with energy := m.energy / 2 })) (femalePicks i))) j).uniqueId =
          w.uniqueIdCounter + 1 + j := by
        intro j
        show (bearInit _ _ _ _ _).uniqueId = _
        rw [bearInit_uniqueId]
      unfold birthCubs
      rw [List.map_map]
      rw [find?_range_map _ (w.uniqueIdCounter + 1) hq _ i hi]
      refine ⟨_, rfl, rfl, ?_⟩
      show (bearInit _ _ _ _ _).energy = _
      rw [bearInit_energy]

end RpgBearSheep

namespace RpgBearSheep

/-- A mother bear (id 1, female, energy 8) and a father (id 2) for the C8
witness. -/
def birthTestW : World :=
  mkTestWorld [mkTestBear 1 .coward true 1 0 8,
    mkTestBear 2 .aggressive false 1 0 10] [1, 2] 0 2 .normal

/-- Witness for C8: the birth conclusion at the concrete two-bear world
(litter size `rngIntegers 1 5 1 = 2`, cub ids 3 and 4). -/
theorem give_birth_spec_witness :
    bearById (giveBirthW birthTestW 1 2 1 0 (fun _ => true) (fun _ => false)) 1 =
      some { mkTestBear 1 .coward true 1 0 8 with
        energy := (mkTestBear 1 .coward true 1 0 8).energy / 2
        doesCareAfterCubs := true
        cubs := (List.range (rngIntegers 1 5 1)).map (fun i => 2 + 1 + i)
        parentalCareCountdown := (rngIntegers 8 17 0 : ℤ) } :=
  (give_birth_spec birthTestW 1 2 (mkTestBear 1 .coward true 1 0 8)
    (mkTestBear 2 .aggressive false 1 0 10) 1 0 (fun _ => true) (fun _ => false)
    rfl rfl (by decide) (by decide) (by decide)).2.1

end RpgBearSheep
